import Mathlib

/-!
Shallow embedding of the Aseko cloud API client and refresh coordinator
(`custom_components/aseko/api.py`, `custom_components/aseko/coordinator.py`),
together with theorems settling the specification claims about pagination,
the fan-out aggregator, unit parsing and error propagation.
-/

namespace Aseko

/-- Python exception classes appearing in `api.py` (lines 17-30) together with
the classes they derive from. `exc` stands for the builtin `Exception`. -/
inductive PyExcClass where
  | exc
  | asekoApiError
  | asekoAuthError
  | asekoConnectionError
  | asekoNotFoundError
deriving DecidableEq, Repr

/-- Direct base class of each exception class, as declared in `api.py`:
`AsekoApiError(Exception)`, `AsekoAuthError(AsekoApiError)`,
`AsekoConnectionError(AsekoApiError)`, `AsekoNotFoundError(AsekoApiError)`. -/
def superclass : PyExcClass → Option PyExcClass
  | .exc => none
  | .asekoApiError => some .exc
  | .asekoAuthError => some .asekoApiError
  | .asekoConnectionError => some .asekoApiError
  | .asekoNotFoundError => some .asekoApiError

/-- Walks the base-class chain (fuelled; the chain has depth at most 2). -/
def classDerivesFuel : Nat → PyExcClass → PyExcClass → Bool
  | 0, _, _ => false
  | fuel + 1, c, d =>
    c = d ||
      match superclass c with
      | none => false
      | some p => classDerivesFuel fuel p d

/-- Python `issubclass`: reflexive-transitive closure of `superclass`. -/
def classDerives (c d : PyExcClass) : Bool :=
  classDerivesFuel 4 c d

/-- An exception instance: its class and its message (Python `str(err)`). -/
structure PyExc where
  cls : PyExcClass
  msg : String
deriving DecidableEq, Repr

/-- A raw JSON scalar as carried opaquely in `statusValues`. -/
inductive JsonValue where
  | str (s : String)
  | num (n : Int)
  | bool (b : Bool)
deriving DecidableEq, Repr

/-- One record of the detail payload's `statusMessages` list. -/
structure StatusMessage where
  type : Option String
  severity : Option String
  message : Option String
  detail : Option String
deriving DecidableEq, Repr

/-- The `brandName` sub-object of the detail payload. -/
structure BrandData where
  primary : Option String
  secondary : Option String
deriving DecidableEq, Repr

/-- A well-typed detail payload for one unit (`GET /paired-units/{serialNumber}`).
Every field is optional at the JSON level; `none` models an absent key. -/
structure UnitData where
  serialNumber : Option String
  name : Option String
  note : Option String
  online : Option Bool
  brandName : Option BrandData
  statusMessages : Option (List StatusMessage)
  statusValues : Option (List (String × JsonValue))
deriving DecidableEq, Repr

/-- The parsed snapshot, mirroring the `AsekoUnit` dataclass in `api.py`. -/
structure AsekoUnit where
  serial_number : String
  name : Option String
  note : Option String
  online : Bool
  has_warning : Bool
  brand_name : Option String
  status_values : List (String × JsonValue)
deriving DecidableEq, Repr

/-- Python `str.strip()`: remove leading and trailing whitespace. -/
def pyStrip (s : String) : String :=
  String.mk
    (((s.data.dropWhile Char.isWhitespace).reverse.dropWhile Char.isWhitespace).reverse)

/-- Embedding of `AsekoApiClient._parse_unit`. The only key accessed with a
raising lookup is `data["serialNumber"]`, so the result is `none` exactly when
that key is absent; every other access uses `dict.get` with a default. The
classes modelled in `PyExcClass` all derive `Exception`, so the
`isinstance(result, Exception)` style guards elsewhere never reach a
non-exception case. -/
def parse_unit (data : UnitData) : Option AsekoUnit :=
  match data.serialNumber with
  | none => none
  | some sn =>
    let brand_name : Option String :=
      match data.brandName with
      | none => none
      | some brand_data =>
        let primary := brand_data.primary.getD ""
        let secondary := brand_data.secondary.getD ""
        let s := pyStrip (primary ++ " " ++ secondary)
        if s = "" then none else some s
    let status_messages := data.statusMessages.getD []
    let has_warning :=
      status_messages.any fun msg =>
        msg.severity = some "ERROR" || msg.severity = some "WARNING"
    some
      { serial_number := sn
        name := data.name
        note := data.note
        online := data.online.getD false
        has_warning := has_warning
        brand_name := brand_name
        status_values := data.statusValues.getD [] }

/-- One page of the `GET /paired-units?page=&limit=` response: the serial
numbers of its `items` list and the optional `totalItems` field (`none` models
an absent key, read back with `data.get("totalItems", 0)`). -/
structure PageResponse where
  items : List String
  totalItems : Option Nat
deriving DecidableEq, Repr

/-- A server behaviour for the paired-units endpoint: the response returned
for each requested page number (all requests assumed to succeed). -/
def Server := Nat → PageResponse

/-- The `while True` page loop of `AsekoApiClient.get_unit_serials`
(`api.py` lines 138-154), with `limit = 100`. The loop runs with explicit
fuel; `none` means the fuel ran out before a stop condition was reached. -/
def get_unit_serials_loop (srv : Server) : Nat → Nat → List String → Option (List String)
  | 0, _, _ => none
  | fuel + 1, page, acc =>
    let data := srv page
    let items := data.items
    if items.isEmpty then some acc
    else
      let acc2 := acc ++ items
      let total_items := data.totalItems.getD 0
      if total_items ≤ page * 100 then some acc2
      else get_unit_serials_loop srv fuel (page + 1) acc2

/-- Lexicographic comparison of char lists by code point, mirroring how
Python's `sorted` compares strings. -/
def strLeAux : List Char → List Char → Bool
  | [], _ => true
  | _ :: _, [] => false
  | a :: as, b :: bs =>
    if a.toNat < b.toNat then true
    else if b.toNat < a.toNat then false
    else strLeAux as bs

/-- Python's `str` ordering: lexicographic by code point. -/
def strLe (a b : String) : Bool :=
  strLeAux a.data b.data

/-- Embedding of `AsekoApiClient.get_unit_serials`: run the page loop from
page 1 with an empty accumulator, then sort. Python's `sorted` on strings
yields the unique ascending lexicographic reordering of the list, computed
here by insertion sort over `strLe`. -/
def get_unit_serials (srv : Server) (fuel : Nat) : Option (List String) :=
  (get_unit_serials_loop srv fuel 1 []).map fun l =>
    l.insertionSort fun a b => strLe a b = true

/-- The condition under which the page loop stops at page `p`: the page's
item list is empty, or `page * limit` (with `limit = 100`) meets or exceeds
the effective total (`data.get("totalItems", 0)`). -/
def stopCond (d : PageResponse) (p : Nat) : Prop :=
  d.items = [] ∨ d.totalItems.getD 0 ≤ p * 100

instance (d : PageResponse) (p : Nat) : Decidable (stopCond d p) := by
  unfold stopCond
  infer_instance

/-- The concatenated items of pages `a` through `b` inclusive. -/
def pagesItems (srv : Server) (a b : Nat) : List String :=
  ((List.range' a (b + 1 - a)).map fun p => (srv p).items).flatten

/-- Outcome of one `get_unit` call as collected by
`asyncio.gather(..., return_exceptions=True)`: either a parsed unit or a
captured exception. -/
inductive FetchOutcome where
  | unit (u : AsekoUnit)
  | exc (e : PyExc)
deriving DecidableEq, Repr

/-- Result of `get_units`: a returned list or a raised exception. -/
inductive GetUnitsResult where
  | ok (units : List AsekoUnit)
  | raised (e : PyExc)
deriving DecidableEq, Repr

/-- The classification loop of `AsekoApiClient.get_units` (`api.py` lines
186-199): walk `zip(all_serial_numbers, results)` accumulating successful
units, non-404 errors and the not-found count, raising the first
`AsekoAuthError` encountered. -/
def classifyLoop :
    List (String × FetchOutcome) → List AsekoUnit → List (String × PyExc) → Nat →
      Except PyExc (List AsekoUnit × List (String × PyExc) × Nat)
  | [], units, errors, nfc => .ok (units, errors, nfc)
  | (sn, r) :: rest, units, errors, nfc =>
    match r with
    | .exc e =>
      if classDerives e.cls .asekoAuthError then .error e
      else if classDerives e.cls .asekoNotFoundError then
        classifyLoop rest units errors (nfc + 1)
      else classifyLoop rest units (errors ++ [(sn, e)]) nfc
    | .unit u => classifyLoop rest (units ++ [u]) errors nfc

/-- Embedding of `AsekoApiClient.get_units` (`api.py` lines 159-212) given the
sorted serial list and the per-serial fetch outcomes: empty serial list
short-circuits to `[]`; otherwise classify the outcomes and apply the
empty-result post-condition check. -/
def get_units (serials : List String) (results : List FetchOutcome) : GetUnitsResult :=
  if serials.isEmpty then .ok []
  else
    match classifyLoop (serials.zip results) [] [] 0 with
    | .error e => .raised e
    | .ok (units, errors, nfc) =>
      if units.isEmpty && !serials.isEmpty then
        if nfc = serials.length then
          .raised ⟨.asekoApiError,
            "All " ++ toString nfc ++ " units returned 404 - data may be stale"⟩
        else if !errors.isEmpty then
          .raised ⟨.asekoApiError,
            "Failed to fetch any units. Errors: " ++ toString errors.length⟩
        else .ok units
      else .ok units

/-- The signals the coordinator can raise towards the host platform. -/
inductive UpdateSignal where
  | configEntryAuthFailed (msg : String)
  | updateFailed (msg : String)
  | unhandled (e : PyExc)
deriving DecidableEq, Repr

/-- A Python dict insert: update the value in place if the key is present,
append otherwise (CPython dict semantics for the comprehension in
`coordinator.py` line 58). -/
def dictInsert (m : List (String × AsekoUnit)) (k : String) (v : AsekoUnit) :
    List (String × AsekoUnit) :=
  if m.any fun p => p.1 = k then
    m.map fun p => if p.1 = k then (k, v) else p
  else m ++ [(k, v)]

/-- The dict comprehension `{unit.serial_number: unit for unit in units}`. -/
def unitsToDict (units : List AsekoUnit) : List (String × AsekoUnit) :=
  units.foldl (fun m u => dictInsert m u.serial_number u) []

/-- Embedding of `AsekoDataUpdateCoordinator._async_update_data`
(`coordinator.py` lines 46-63) as a function of the `get_units` outcome:
build the serial-to-unit mapping on success, translate `AsekoAuthError` to
`ConfigEntryAuthFailed` and any other `AsekoApiError` to `UpdateFailed`
(`except` clauses dispatch by `isinstance`, tried in source order). -/
def coordinator_update (res : GetUnitsResult) :
    Except UpdateSignal (List (String × AsekoUnit)) :=
  match res with
  | .ok units => .ok (unitsToDict units)
  | .raised e =>
    if classDerives e.cls .asekoAuthError then
      .error (.configEntryAuthFailed ("Authentication failed: " ++ e.msg))
    else if classDerives e.cls .asekoApiError then
      .error (.updateFailed ("Error fetching data: " ++ e.msg))
    else .error (.unhandled e)

/-- Modelled from the spec: the host platform's `DataUpdateCoordinator`
(external to this repository) keeps the previously exposed mapping when
`_async_update_data` raises, and replaces it wholesale with the returned
mapping on success. One refresh cycle maps the previous mapping and the
`get_units` outcome to the mapping exposed afterwards plus the raised
signal, if any. -/
def coordinator_refresh (prev : List (String × AsekoUnit)) (res : GetUnitsResult) :
    List (String × AsekoUnit) × Option UpdateSignal :=
  match coordinator_update res with
  | .ok m => (m, none)
  | .error sig => (prev, some sig)

/-- One unfolding of the page loop in the fuelled case. -/
theorem get_unit_serials_loop_succ (srv : Server) (fuel page : Nat) (acc : List String) :
    get_unit_serials_loop srv (fuel + 1) page acc =
      if (srv page).items.isEmpty then some acc
      else if (srv page).totalItems.getD 0 ≤ page * 100 then
        some (acc ++ (srv page).items)
      else get_unit_serials_loop srv fuel (page + 1) (acc ++ (srv page).items) :=
  rfl

/-- Splitting off the first page of a page range. -/
theorem pagesItems_cons (srv : Server) (a b : Nat) (h : a ≤ b) :
    pagesItems srv a b = (srv a).items ++ pagesItems srv (a + 1) b := by
  unfold pagesItems
  have h1 : b + 1 - a = (b + 1 - (a + 1)) + 1 := by omega
  rw [h1, List.range'_succ]
  simp

/-- The single-page range. -/
theorem pagesItems_self (srv : Server) (a : Nat) :
    pagesItems srv a a = (srv a).items := by
  unfold pagesItems
  have h1 : a + 1 - a = 1 := by omega
  rw [h1, List.range'_one]
  simp

/-- Characterization of the page loop: if `q` is the first page at which the
stop condition holds, the loop with enough fuel returns the accumulator
extended with the items of every page up to and including `q`. -/
theorem get_unit_serials_loop_eq (srv : Server) (q : Nat)
    (hstop : stopCond (srv q) q) :
    ∀ fuel start acc, start ≤ q →
      (∀ p, start ≤ p → p < q → ¬ stopCond (srv p) p) →
      q - start < fuel →
      get_unit_serials_loop srv fuel start acc =
        some (acc ++ pagesItems srv start q) := by
  intro fuel
  induction fuel with
  | zero => intro start acc _ _ h; omega
  | succ fuel ih =>
    intro start acc hle hmin hfuel
    by_cases hq : start = q
    · subst hq
      rw [pagesItems_self]
      rcases hstop with hempty | htot
      · simp [get_unit_serials_loop, hempty]
      · by_cases hempty : (srv start).items = []
        · simp [get_unit_serials_loop, hempty]
        · simp [get_unit_serials_loop, hempty, htot]
    · have hlt : start < q := lt_of_le_of_ne hle hq
      have hns : ¬ stopCond (srv start) start := hmin start le_rfl hlt
      unfold stopCond at hns
      push_neg at hns
      obtain ⟨hne, htot⟩ := hns
      have hrec := ih (start + 1) (acc ++ (srv start).items) (by omega)
        (fun p hp1 hp2 => hmin p (by omega) hp2) (by omega)
      rw [pagesItems_cons srv start q hle]
      simp only [get_unit_serials_loop, hne, htot]
      simp only [List.isEmpty_iff, hne, if_false, not_le.mpr htot, if_false]
      rw [hrec, List.append_assoc]

/-- C1 (amended): the page loop stops exactly when the current page's item
list is empty, or when `page * limit` (the cumulative page capacity,
`limit = 100`) meets or exceeds the effective server-reported total item
count, where a missing `totalItems` field is read as `0`; consequently a
missing or zero total makes the capacity condition hold at once, so the loop
stops after the first non-empty page rather than continuing until an empty
page. The identifiers of every retrieved page are accumulated. -/
theorem get_unit_serials_loop_characterization (srv : Server) (q fuel : Nat)
    (hq : 1 ≤ q) (hstop : stopCond (srv q) q)
    (hmin : ∀ p, 1 ≤ p → p < q → ¬ stopCond (srv p) p)
    (hfuel : q ≤ fuel) :
    get_unit_serials_loop srv fuel 1 [] = some (pagesItems srv 1 q) := by
  have h := get_unit_serials_loop_eq srv q hstop fuel 1 [] hq hmin (by omega)
  simpa using h

def srvC1w : Server := fun p =>
  if p = 1 then ⟨["B", "A"], some 150⟩
  else if p = 2 then ⟨["C"], some 150⟩
  else ⟨[], some 150⟩

theorem get_unit_serials_loop_characterization_witness :
    1 ≤ 2 ∧ stopCond (srvC1w 2) 2 ∧
    get_unit_serials_loop srvC1w 3 1 [] = some (pagesItems srvC1w 1 2) :=
  ⟨by decide, by decide,
    get_unit_serials_loop_characterization srvC1w 2 3 (by decide) (by decide)
      (fun p hp1 hp2 => by
        have : p = 1 := by omega
        subst this
        decide)
      (by decide)⟩

/-- Modelled from the spec's words for comparison (claim C1): stop on an
empty page, or when the running count of retrieved items meets or exceeds a
positive server-reported total; with a missing or zero total-count field only
the empty-page condition stops the loop. -/
def get_unit_serials_claim_loop (srv : Server) :
    Nat → Nat → List String → Option (List String)
  | 0, _, _ => none
  | fuel + 1, page, acc =>
    let data := srv page
    if data.items.isEmpty then some acc
    else
      let acc2 := acc ++ data.items
      let total := data.totalItems.getD 0
      if total ≠ 0 ∧ total ≤ acc2.length then some acc2
      else get_unit_serials_claim_loop srv fuel (page + 1) acc2

/-- The claim's version of `get_unit_serials`, sorted like the code's. -/
def get_unit_serials_claim (srv : Server) (fuel : Nat) : Option (List String) :=
  (get_unit_serials_claim_loop srv fuel 1 []).map fun l =>
    l.insertionSort fun a b => strLe a b = true

def srvC1 : Server := fun p =>
  if p = 1 then ⟨["A"], none⟩
  else if p = 2 then ⟨["B"], none⟩
  else ⟨[], none⟩

/-- C1 counterexample: a server whose pages are `["A"]`, `["B"]`, `[]` with
no `totalItems` field. The claim's fallback (keep requesting until an empty
page) would retrieve both `"A"` and `"B"`, but the code stops after the first
page because `page * limit = 100 ≥ 0`, returning only `["A"]`. -/
theorem get_unit_serials_missing_total_counterexample :
    get_unit_serials srvC1 10 = some ["A"] ∧
    get_unit_serials_claim srvC1 10 = some ["A", "B"] := by
  decide

/-- Code-point lexicographic comparison is total. -/
theorem strLeAux_total : ∀ as bs, strLeAux as bs = true ∨ strLeAux bs as = true := by
  intro as
  induction as with
  | nil => intro bs; left; rfl
  | cons a as ih =>
    intro bs
    cases bs with
    | nil => right; rfl
    | cons b bs =>
      by_cases hab : a.toNat < b.toNat
      · left; simp [strLeAux, hab]
      · by_cases hba : b.toNat < a.toNat
        · right; simp [strLeAux, hba]
        · rcases ih bs with h | h
          · left; simp [strLeAux, hab, hba, h]
          · right; simp [strLeAux, hab, hba, h]

/-- Code-point lexicographic comparison is transitive. -/
theorem strLeAux_trans : ∀ as bs cs, strLeAux as bs = true → strLeAux bs cs = true →
    strLeAux as cs = true := by
  intro as
  induction as with
  | nil => intros; rfl
  | cons a as ih =>
    intro bs cs h1 h2
    cases bs with
    | nil => simp [strLeAux] at h1
    | cons b bs =>
      cases cs with
      | nil => simp [strLeAux] at h2
      | cons c cs =>
        simp only [strLeAux] at h1 h2 ⊢
        by_cases hab : a.toNat < b.toNat
        · by_cases hbc : b.toNat < c.toNat
          · simp [hab.trans hbc]
          · by_cases hcb : c.toNat < b.toNat
            · simp [hbc, hcb] at h2
            · have hac : a.toNat < c.toNat := by omega
              simp [hac]
        · by_cases hba : b.toNat < a.toNat
          · simp [hab, hba] at h1
          · have h1' : strLeAux as bs = true := by simpa [hab, hba] using h1
            by_cases hbc : b.toNat < c.toNat
            · have hac : a.toNat < c.toNat := by omega
              simp [hac]
            · by_cases hcb : c.toNat < b.toNat
              · simp [hbc, hcb] at h2
              · have h2' : strLeAux bs cs = true := by simpa [hbc, hcb] using h2
                have hac : ¬ a.toNat < c.toNat := by omega
                have hca : ¬ c.toNat < a.toNat := by omega
                simp [hac, hca, ih bs cs h1' h2']

instance : IsTotal String fun a b => strLe a b = true :=
  ⟨fun a b => strLeAux_total a.data b.data⟩

instance : IsTrans String fun a b => strLe a b = true :=
  ⟨fun a b c => strLeAux_trans a.data b.data c.data⟩

/-- C2 (amended): the list returned by `get_unit_serials` is the ascending
lexicographic sorting of the full multiset of serial numbers collected across
the retrieved pages; duplicates (a serial appearing on more than one page,
or twice on a page) are retained, not deduplicated. -/
theorem get_unit_serials_sorted_perm (srv : Server) (fuel : Nat)
    (collected : List String)
    (h : get_unit_serials_loop srv fuel 1 [] = some collected) :
    ∃ res, get_unit_serials srv fuel = some res ∧
      res.Perm collected ∧ res.Sorted fun a b => strLe a b = true := by
  refine ⟨collected.insertionSort fun a b => strLe a b = true, ?_, ?_, ?_⟩
  · simp [get_unit_serials, h]
  · exact List.perm_insertionSort _ _
  · exact List.sorted_insertionSort _ _

def srvC2 : Server := fun p =>
  if p = 1 then ⟨["A", "A"], some 1⟩ else ⟨[], some 1⟩

theorem get_unit_serials_sorted_perm_witness :
    get_unit_serials_loop srvC2 5 1 [] = some ["A", "A"] ∧
    ∃ res, get_unit_serials srvC2 5 = some res ∧
      res.Perm ["A", "A"] ∧ res.Sorted fun a b => strLe a b = true :=
  ⟨rfl, get_unit_serials_sorted_perm srvC2 5 ["A", "A"] rfl⟩

/-- C2 counterexample: a single page whose item list holds the serial `"A"`
twice. The code returns `["A", "A"]` — the sorted list with the duplicate
retained — while the claim's deduplicated set would be `["A"]`. -/
theorem get_unit_serials_no_dedup_counterexample :
    get_unit_serials srvC2 5 = some ["A", "A"] ∧
    some ((["A", "A"] : List String).dedup.insertionSort fun a b => strLe a b = true) ≠
      get_unit_serials srvC2 5 := by
  constructor
  · decide
  · decide

/-- C9: for every server behaviour whose effective total item count
(`data.get("totalItems", 0)`, hence `0` when the field is missing) is a fixed
finite `T` — including `T = 0` — the page loop reaches a stop condition
within `T / 100 + 1` page requests: any fuel of at least `T / 100 + 1` is
enough for `get_unit_serials` to return a result rather than run out. -/
theorem get_unit_serials_terminates (srv : Server) (T : Nat)
    (hT : ∀ p, (srv p).totalItems.getD 0 = T) (fuel : Nat)
    (hfuel : T / 100 + 1 ≤ fuel) :
    (get_unit_serials srv fuel).isSome = true := by
  have key : ∀ f page acc, T < page * 100 + f * 100 →
      (get_unit_serials_loop srv (f + 1) page acc).isSome = true := by
    intro f
    induction f with
    | zero =>
      intro page acc hlt
      have htot : (srv page).totalItems.getD 0 ≤ page * 100 := by
        rw [hT page]; omega
      by_cases hempty : (srv page).items = [] <;>
        simp [get_unit_serials_loop, hempty, htot]
    | succ f ih =>
      intro page acc hlt
      by_cases hempty : (srv page).items = []
      · simp [get_unit_serials_loop, hempty]
      · by_cases htot : (srv page).totalItems.getD 0 ≤ page * 100
        · simp [get_unit_serials_loop, hempty, htot]
        · have hrec := ih (page + 1) (acc ++ (srv page).items) (by omega)
          rw [get_unit_serials_loop_succ]
          simp only [List.isEmpty_iff, hempty, if_false, htot, if_false]
          exact hrec
  obtain ⟨f, hf⟩ : ∃ f, fuel = f + 1 := ⟨fuel - 1, by omega⟩
  subst hf
  have h1 := Nat.div_add_mod T 100
  have h2 : T % 100 < 100 := Nat.mod_lt _ (by norm_num)
  have hkey := key f 1 [] (by omega)
  rw [get_unit_serials, Option.isSome_map']
  exact hkey

def srvC9 : Server := fun p =>
  ⟨if p ≤ 2 then ["X"] else [], some 150⟩

theorem get_unit_serials_terminates_witness :
    (get_unit_serials srvC9 2).isSome = true :=
  get_unit_serials_terminates srvC9 150 (fun _ => rfl) 2 (by decide)

/-- Only `AsekoAuthError` itself is a subclass of `AsekoAuthError`. -/
theorem classDerives_auth_iff (c : PyExcClass) :
    classDerives c .asekoAuthError = true ↔ c = .asekoAuthError := by
  cases c <;> decide

/-- Only `AsekoNotFoundError` itself is a subclass of `AsekoNotFoundError`. -/
theorem classDerives_notFound_iff (c : PyExcClass) :
    classDerives c .asekoNotFoundError = true ↔ c = .asekoNotFoundError := by
  cases c <;> decide

/-- The successful unit carried by a fetch outcome, if any. -/
def outcomeUnit? : FetchOutcome → Option AsekoUnit
  | .unit u => some u
  | .exc _ => none

/-- Whether a fetch outcome is an `AsekoNotFoundError` instance. -/
def isNotFoundOutcome : FetchOutcome → Bool
  | .exc e => classDerives e.cls .asekoNotFoundError
  | .unit _ => false

/-- Whether a fetch outcome is an exception that is neither an
`AsekoAuthError` nor an `AsekoNotFoundError` instance. -/
def isOtherErrorOutcome : FetchOutcome → Bool
  | .exc e => !classDerives e.cls .asekoAuthError && !classDerives e.cls .asekoNotFoundError
  | .unit _ => false

/-- The entry a classified pair contributes to the error list, if any. -/
def otherErr? (p : String × FetchOutcome) : Option (String × PyExc) :=
  match p.2 with
  | .exc e =>
    if classDerives e.cls .asekoAuthError then none
    else if classDerives e.cls .asekoNotFoundError then none
    else some (p.1, e)
  | .unit _ => none

/-- When no outcome is an auth error, the classification loop returns the
successful units in order, the non-404 errors in order, and the 404 count. -/
theorem classifyLoop_no_auth :
    ∀ (l : List (String × FetchOutcome)) units errors nfc,
      (∀ sn e, (sn, FetchOutcome.exc e) ∈ l → classDerives e.cls .asekoAuthError = false) →
      classifyLoop l units errors nfc =
        .ok (units ++ l.filterMap (fun p => outcomeUnit? p.2),
             errors ++ l.filterMap otherErr?,
             nfc + l.countP fun p => isNotFoundOutcome p.2) := by
  intro l
  induction l with
  | nil => intro units errors nfc _; simp [classifyLoop]
  | cons hd rest ih =>
    intro units errors nfc hnoauth
    obtain ⟨sn, r⟩ := hd
    have hrest : ∀ sn e, (sn, FetchOutcome.exc e) ∈ rest →
        classDerives e.cls .asekoAuthError = false :=
      fun sn' e' h => hnoauth sn' e' (List.mem_cons_of_mem _ h)
    cases r with
    | unit u =>
      rw [classifyLoop, ih (units ++ [u]) errors nfc hrest]
      simp [outcomeUnit?, otherErr?, isNotFoundOutcome, List.filterMap_cons, List.countP_cons]
    | exc e =>
      have hauth : classDerives e.cls .asekoAuthError = false :=
        hnoauth sn e (List.mem_cons_self _ _)
      by_cases hnf : classDerives e.cls .asekoNotFoundError = true
      · rw [classifyLoop, hauth]
        simp only [Bool.false_eq_true, if_false, hnf, if_true]
        rw [ih units errors (nfc + 1) hrest]
        have hcount : nfc + 1 + rest.countP (fun p => isNotFoundOutcome p.2) =
            nfc + ((sn, FetchOutcome.exc e) :: rest).countP (fun p => isNotFoundOutcome p.2) := by
          simp [List.countP_cons, isNotFoundOutcome, hnf]
          omega
        rw [hcount]
        simp [outcomeUnit?, otherErr?, hauth, hnf, List.filterMap_cons]
      · have hnf' : classDerives e.cls .asekoNotFoundError = false := by
          simpa using hnf
        rw [classifyLoop, hauth]
        simp only [Bool.false_eq_true, if_false, hnf', if_false]
        rw [ih units (errors ++ [(sn, e)]) nfc hrest]
        simp [outcomeUnit?, otherErr?, isNotFoundOutcome, hauth, hnf',
          List.filterMap_cons, List.countP_cons]

/-- When some outcome is an auth error, the classification loop raises an
auth error drawn from the list. -/
theorem classifyLoop_auth :
    ∀ (l : List (String × FetchOutcome)) units errors nfc,
      (∃ sn e, (sn, FetchOutcome.exc e) ∈ l ∧ e.cls = .asekoAuthError) →
      ∃ sn e, (sn, FetchOutcome.exc e) ∈ l ∧ e.cls = .asekoAuthError ∧
        classifyLoop l units errors nfc = .error e := by
  intro l
  induction l with
  | nil =>
    intro _ _ _ h
    obtain ⟨_, _, h, _⟩ := h
    simp at h
  | cons hd rest ih =>
    intro units errors nfc h
    obtain ⟨sn0, r0⟩ := hd
    cases r0 with
    | unit u =>
      obtain ⟨sn, e, hmem, hcls⟩ := h
      have hmem' : (sn, FetchOutcome.exc e) ∈ rest := by
        rcases List.mem_cons.mp hmem with heq | h'
        · exact absurd (congrArg Prod.snd heq) (by simp)
        · exact h'
      obtain ⟨sn', e', hm, hc, heq⟩ := ih (units ++ [u]) errors nfc ⟨sn, e, hmem', hcls⟩
      exact ⟨sn', e', List.mem_cons_of_mem _ hm, hc, by rw [classifyLoop]; exact heq⟩
    | exc e0 =>
      by_cases h0 : classDerives e0.cls .asekoAuthError = true
      · refine ⟨sn0, e0, List.mem_cons_self _ _, (classDerives_auth_iff _).mp h0, ?_⟩
        rw [classifyLoop, h0]
        simp
      · obtain ⟨sn, e, hmem, hcls⟩ := h
        have hmem' : (sn, FetchOutcome.exc e) ∈ rest := by
          rcases List.mem_cons.mp hmem with heq | h'
          · exfalso
            have he : e = e0 := by
              have := congrArg Prod.snd heq
              simpa using this
            rw [he] at hcls
            exact h0 ((classDerives_auth_iff _).mpr hcls)
          · exact h'
        have h0' : classDerives e0.cls .asekoAuthError = false := by simpa using h0
        by_cases hnf : classDerives e0.cls .asekoNotFoundError = true
        · obtain ⟨sn', e', hm, hc, heq⟩ := ih units errors (nfc + 1) ⟨sn, e, hmem', hcls⟩
          refine ⟨sn', e', List.mem_cons_of_mem _ hm, hc, ?_⟩
          rw [classifyLoop, h0']
          simpa [hnf] using heq
        · have hnf' : classDerives e0.cls .asekoNotFoundError = false := by simpa using hnf
          obtain ⟨sn', e', hm, hc, heq⟩ := ih units (errors ++ [(sn0, e0)]) nfc ⟨sn, e, hmem', hcls⟩
          refine ⟨sn', e', List.mem_cons_of_mem _ hm, hc, ?_⟩
          rw [classifyLoop, h0']
          simpa [hnf'] using heq

/-- A member of the right list of a zip of equally long lists is the second
component of some zipped pair. -/
theorem exists_mem_zip_right {α β : Type} :
    ∀ (xs : List α) (ys : List β) (b : β), ys.length = xs.length → b ∈ ys →
      ∃ a, (a, b) ∈ xs.zip ys := by
  intro xs
  induction xs with
  | nil =>
    intro ys b hlen hb
    cases ys with
    | nil => simp at hb
    | cons y ys => simp at hlen
  | cons x xs ih =>
    intro ys b hlen hb
    cases ys with
    | nil => simp at hb
    | cons y ys =>
      simp only [List.length_cons, Nat.add_right_cancel_iff] at hlen
      rcases List.mem_cons.mp hb with h | h
      · exact ⟨x, by simp [h]⟩
      · obtain ⟨a, ha⟩ := ih ys b hlen h
        exact ⟨a, List.mem_cons_of_mem _ ha⟩

/-- C3: for every identifier list and per-identifier outcome assignment, if
at least one outcome is an `AsekoAuthError` then `get_units` raises an
`AsekoAuthError` that is one of the original outcomes — carrying its original
message — regardless of how many other fetches succeeded or failed. -/
theorem get_units_auth_raises (serials : List String) (results : List FetchOutcome)
    (hlen : results.length = serials.length)
    (e : PyExc) (hmem : FetchOutcome.exc e ∈ results)
    (hcls : e.cls = .asekoAuthError) :
    ∃ e', get_units serials results = .raised e' ∧ e'.cls = .asekoAuthError ∧
      FetchOutcome.exc e' ∈ results := by
  have hser : serials.isEmpty = false := by
    cases serials with
    | nil =>
      simp only [List.length_nil] at hlen
      rw [List.length_eq_zero] at hlen
      rw [hlen] at hmem
      simp at hmem
    | cons a l => simp
  obtain ⟨sn, hsn⟩ := exists_mem_zip_right serials results (FetchOutcome.exc e) hlen hmem
  obtain ⟨sn', e', hmem', hcls', heq⟩ :=
    classifyLoop_auth (serials.zip results) [] [] 0 ⟨sn, e, hsn, hcls⟩
  refine ⟨e', ?_, hcls', (List.of_mem_zip hmem').2⟩
  simp [get_units, hser, heq]

def unitC3 : AsekoUnit :=
  { serial_number := "UNIT1", name := none, note := none, online := true
    has_warning := false, brand_name := none, status_values := [] }

def resultsC3 : List FetchOutcome :=
  [.unit unitC3, .exc ⟨.asekoAuthError, "Token expired"⟩]

theorem get_units_auth_raises_witness :
    ∃ e', get_units ["UNIT1", "UNIT2"] resultsC3 = .raised e' ∧
      e'.cls = .asekoAuthError ∧ FetchOutcome.exc e' ∈ resultsC3 :=
  get_units_auth_raises ["UNIT1", "UNIT2"] resultsC3 rfl
    ⟨.asekoAuthError, "Token expired"⟩ (by simp [resultsC3]) rfl

/-- C4: with a non-empty identifier list, no auth-error outcome and at least
one successful fetch, `get_units` returns — without raising — exactly the
successful snapshots, in the order their identifiers appear in the
identifier list; failed units are simply absent. -/
theorem get_units_partial_success (serials : List String) (results : List FetchOutcome)
    (hlen : results.length = serials.length)
    (hnoauth : ∀ e, FetchOutcome.exc e ∈ results → e.cls ≠ .asekoAuthError)
    (u0 : AsekoUnit) (hsucc : FetchOutcome.unit u0 ∈ results) :
    get_units serials results = .ok (results.filterMap outcomeUnit?) := by
  have hser : serials.isEmpty = false := by
    cases serials with
    | nil =>
      simp only [List.length_nil] at hlen
      rw [List.length_eq_zero] at hlen
      rw [hlen] at hsucc
      simp at hsucc
    | cons a l => simp
  have hnoauth' : ∀ sn e, (sn, FetchOutcome.exc e) ∈ serials.zip results →
      classDerives e.cls .asekoAuthError = false := by
    intro sn e h
    have hin := (List.of_mem_zip h).2
    by_contra hc
    simp only [Bool.not_eq_false] at hc
    exact hnoauth e hin ((classDerives_auth_iff _).mp hc)
  have hcl := classifyLoop_no_auth (serials.zip results) [] [] 0 hnoauth'
  have hmap : (serials.zip results).map Prod.snd = results :=
    List.map_snd_zip _ _ (le_of_eq hlen)
  have hzipmap : (serials.zip results).filterMap (fun p => outcomeUnit? p.2) =
      results.filterMap outcomeUnit? := by
    conv_rhs => rw [← hmap]
    rw [List.filterMap_map]
    rfl
  have hne : (results.filterMap outcomeUnit?).isEmpty = false := by
    have hu : u0 ∈ results.filterMap outcomeUnit? :=
      List.mem_filterMap.mpr ⟨FetchOutcome.unit u0, hsucc, rfl⟩
    cases hfm : results.filterMap outcomeUnit? with
    | nil => rw [hfm] at hu; simp at hu
    | cons a l => simp
  rw [hzipmap] at hcl
  simp [get_units, hser, hcl, hne]

def unitC4a : AsekoUnit :=
  { serial_number := "UNIT1", name := none, note := none, online := true
    has_warning := false, brand_name := none, status_values := [] }

def unitC4b : AsekoUnit :=
  { serial_number := "UNIT3", name := none, note := none, online := false
    has_warning := true, brand_name := some "ASIN AQUA", status_values := [] }

def resultsC4 : List FetchOutcome :=
  [.unit unitC4a, .exc ⟨.asekoNotFoundError, "Not found"⟩, .unit unitC4b]

theorem get_units_partial_success_witness :
    get_units ["UNIT1", "UNIT2", "UNIT3"] resultsC4 =
      .ok (resultsC4.filterMap outcomeUnit?) :=
  get_units_partial_success ["UNIT1", "UNIT2", "UNIT3"] resultsC4 rfl
    (by
      intro e he
      simp [resultsC3, resultsC4] at he
      subst he
      decide)
    unitC4a (by simp [resultsC4])

/-- C5: with a non-empty identifier list of length `N`, no auth-error
outcome and no successful fetch, `get_units` raises `AsekoApiError`: when
every outcome is an `AsekoNotFoundError` the message reports all `N` as
not-found; otherwise it reports total fetch failure with the count of the
non-404 errors. -/
theorem get_units_total_failure (serials : List String) (results : List FetchOutcome)
    (hlen : results.length = serials.length) (hne : serials ≠ [])
    (hnoauth : ∀ e, FetchOutcome.exc e ∈ results → e.cls ≠ .asekoAuthError)
    (hnosucc : ∀ u : AsekoUnit, FetchOutcome.unit u ∉ results) :
    get_units serials results = .raised
      ⟨.asekoApiError,
        if results.countP isOtherErrorOutcome = 0 then
          "All " ++ toString serials.length ++ " units returned 404 - data may be stale"
        else
          "Failed to fetch any units. Errors: " ++
            toString (results.countP isOtherErrorOutcome)⟩ := by
  have hser : serials.isEmpty = false := by
    cases serials with
    | nil => exact absurd rfl hne
    | cons a l => simp
  have hnoauth' : ∀ sn e, (sn, FetchOutcome.exc e) ∈ serials.zip results →
      classDerives e.cls .asekoAuthError = false := by
    intro sn e h
    have hin := (List.of_mem_zip h).2
    by_contra hc
    simp only [Bool.not_eq_false] at hc
    exact hnoauth e hin ((classDerives_auth_iff _).mp hc)
  have hcl := classifyLoop_no_auth (serials.zip results) [] [] 0 hnoauth'
  have hmap : (serials.zip results).map Prod.snd = results :=
    List.map_snd_zip _ _ (le_of_eq hlen)
  -- the exceptions-only hypothesis transported to the zip
  have hexc : ∀ p ∈ serials.zip results, ∃ e, p.2 = FetchOutcome.exc e ∧
      classDerives e.cls .asekoAuthError = false := by
    intro p hp
    have hin := (List.of_mem_zip hp).2
    cases hr : p.2 with
    | unit u => rw [hr] at hin; exact absurd hin (hnosucc u)
    | exc e =>
      refine ⟨e, rfl, ?_⟩
      rw [hr] at hin
      by_contra hc
      simp only [Bool.not_eq_false] at hc
      exact hnoauth e hin ((classDerives_auth_iff _).mp hc)
  -- no successful units
  have hunits : (serials.zip results).filterMap (fun p => outcomeUnit? p.2) = [] := by
    rw [List.filterMap_eq_nil_iff]
    intro p hp
    obtain ⟨e, hpe, _⟩ := hexc p hp
    rw [hpe]
    rfl
  -- counts over the zip agree with counts over the outcome list
  have hcount : ∀ q : FetchOutcome → Bool,
      (serials.zip results).countP (fun p => q p.2) = results.countP q := by
    intro q
    conv_rhs => rw [← hmap]
    rw [List.countP_map]
    rfl
  -- the 404 count and the other-error count partition the outcomes
  have hsplit : (serials.zip results).countP (fun p => isNotFoundOutcome p.2) +
      (serials.zip results).countP (fun p => isOtherErrorOutcome p.2) =
      serials.length := by
    have hlen' : (serials.zip results).length = serials.length := by
      rw [List.length_zip, hlen, Nat.min_self]
    rw [← hlen']
    rw [List.length_eq_countP_add_countP (fun p => isNotFoundOutcome p.2)]
    congr 1
    apply List.countP_congr
    intro p hp
    obtain ⟨e, hpe, hauth⟩ := hexc p hp
    rw [hpe]
    by_cases hnf : classDerives e.cls .asekoNotFoundError = true <;>
      simp [isNotFoundOutcome, isOtherErrorOutcome, hauth, hnf]
  -- error-list length is the other-error count
  have herrlen : ∀ l : List (String × FetchOutcome),
      (∀ p ∈ l, match p.2 with
        | FetchOutcome.exc e => classDerives e.cls .asekoAuthError = false
        | FetchOutcome.unit _ => False) →
      (l.filterMap otherErr?).length = l.countP fun p => isOtherErrorOutcome p.2 := by
    intro l
    induction l with
    | nil => intro _; rfl
    | cons hd rest ih =>
      intro hl
      have hhd := hl hd (List.mem_cons_self _ _)
      have hrest := fun p hp => hl p (List.mem_cons_of_mem _ hp)
      cases hhd' : hd.2 with
      | unit u => rw [hhd'] at hhd; exact absurd hhd (by simp)
      | exc e =>
        rw [hhd'] at hhd
        by_cases hnf : classDerives e.cls .asekoNotFoundError = true
        · rw [List.filterMap_cons, List.countP_cons]
          simp [otherErr?, isOtherErrorOutcome, hhd', hhd, hnf, ih hrest]
        · have hnf' : classDerives e.cls .asekoNotFoundError = false := by simpa using hnf
          rw [List.filterMap_cons, List.countP_cons]
          simp [otherErr?, isOtherErrorOutcome, hhd', hhd, hnf', ih hrest]
  have herrs := herrlen (serials.zip results) (by
    intro p hp
    obtain ⟨e, hpe, hauth⟩ := hexc p hp
    rw [hpe]
    exact hauth)
  rw [hcount] at herrs
  rw [hunits] at hcl
  set k := results.countP isOtherErrorOutcome with hk
  set nfc := (serials.zip results).countP (fun p => isNotFoundOutcome p.2) with hnfc
  have hsum : nfc + k = serials.length := by rw [hnfc, hk, ← hcount]; exact hsplit
  by_cases hk0 : k = 0
  · have hnfcN : nfc = serials.length := by omega
    simp only [get_units, hser, Bool.false_eq_true, if_false, hcl]
    simp only [List.nil_append, Nat.zero_add]
    rw [if_pos hnfcN]
    simp [hk0, hnfcN]
  · have hnfcN : ¬ nfc = serials.length := by omega
    have herrne : ((serials.zip results).filterMap otherErr?).isEmpty = false := by
      have hlen0 : ((serials.zip results).filterMap otherErr?).length = k := herrs
      cases hfm : (serials.zip results).filterMap otherErr? with
      | nil => rw [hfm] at hlen0; simp at hlen0; omega
      | cons a l => simp
    simp only [get_units, hser, Bool.false_eq_true, if_false, hcl]
    simp only [List.nil_append, Nat.zero_add]
    rw [if_neg hnfcN]
    simp [herrne, herrs, hk0]

def resultsC5 : List FetchOutcome :=
  [.exc ⟨.asekoNotFoundError, "Not found"⟩,
   .exc ⟨.asekoNotFoundError, "Not found"⟩,
   .exc ⟨.asekoNotFoundError, "Not found"⟩]

theorem get_units_total_failure_witness :
    get_units ["UNIT1", "UNIT2", "UNIT3"] resultsC5 = .raised
      ⟨.asekoApiError,
        if resultsC5.countP isOtherErrorOutcome = 0 then
          "All " ++ toString (["UNIT1", "UNIT2", "UNIT3"] : List String).length ++
            " units returned 404 - data may be stale"
        else
          "Failed to fetch any units. Errors: " ++
            toString (resultsC5.countP isOtherErrorOutcome)⟩ :=
  get_units_total_failure ["UNIT1", "UNIT2", "UNIT3"] resultsC5 rfl
    (by simp)
    (by
      intro e he
      simp [resultsC5] at he
      subst he
      decide)
    (by
      intro u hu
      simp [resultsC5] at hu)

/-- C7: for every detail payload that parses, `has_warning` is true iff some
entry of the payload's `statusMessages` list has severity `ERROR` or
`WARNING`; in particular it is false when `statusMessages` is absent or
empty. -/
theorem parse_unit_has_warning_iff (data : UnitData) (u : AsekoUnit)
    (h : parse_unit data = some u) :
    (u.has_warning = true ↔ ∃ m ∈ data.statusMessages.getD [],
      m.severity = some "ERROR" ∨ m.severity = some "WARNING") ∧
    ((data.statusMessages = none ∨ data.statusMessages = some []) →
      u.has_warning = false) := by
  unfold parse_unit at h
  cases hsn : data.serialNumber with
  | none => rw [hsn] at h; exact absurd h (by simp)
  | some sn =>
    rw [hsn] at h
    simp only [Option.some.injEq] at h
    subst h
    constructor
    · simp [List.any_eq_true, decide_eq_true_eq]
    · rintro (hm | hm) <;> simp [hm]

def payloadC7 : UnitData :=
  { serialNumber := some "X", name := none, note := none, online := none
    brandName := none
    statusMessages := some [⟨none, some "WARNING", none, none⟩]
    statusValues := none }

def unitC7 : AsekoUnit :=
  { serial_number := "X", name := none, note := none, online := false
    has_warning := true, brand_name := none, status_values := [] }

theorem parse_unit_has_warning_iff_witness :
    (unitC7.has_warning = true ↔ ∃ m ∈ payloadC7.statusMessages.getD [],
      m.severity = some "ERROR" ∨ m.severity = some "WARNING") ∧
    ((payloadC7.statusMessages = none ∨ payloadC7.statusMessages = some []) →
      unitC7.has_warning = false) :=
  parse_unit_has_warning_iff payloadC7 unitC7 rfl

/-- Modelled from the spec's words for comparison (claim C8): the composed
brand name is the space-joined, trimmed composition of the sub-fields, and is
absent when both sub-fields are empty. -/
def brand_name_claim (bd? : Option BrandData) : Option String :=
  match bd? with
  | none => none
  | some bd =>
    if bd.primary.getD "" = "" ∧ bd.secondary.getD "" = "" then none
    else some (pyStrip (bd.primary.getD "" ++ " " ++ bd.secondary.getD ""))

def payloadC8cex : UnitData :=
  { serialNumber := some "X", name := none, note := none, online := none
    brandName := some ⟨some " ", some ""⟩
    statusMessages := none, statusValues := none }

/-- C8 counterexample: with sub-fields `primary = " "`, `secondary = ""`
(whitespace-only, not both empty), the code yields `brand_name = none` while
the claim's composition is the string `""`, so the claim's description of
`brand_name` fails on this payload. -/
theorem parse_unit_brand_counterexample :
    (parse_unit payloadC8cex).map AsekoUnit.brand_name ≠
      some (brand_name_claim payloadC8cex.brandName) := by
  decide

/-- C8 (amended): parsing succeeds without raising whenever the payload
contains `serialNumber`, regardless of which optional fields are absent;
`online` defaults to false; `brand_name` is the space-joined, trimmed
composition of the `brandName` sub-fields when that composition is non-empty,
and is absent (`none`) when the trimmed composition is empty — in particular
when both sub-fields are empty or `brandName` is absent. -/
theorem parse_unit_total (data : UnitData) (sn : String)
    (h : data.serialNumber = some sn) :
    ∃ u, parse_unit data = some u ∧ u.serial_number = sn ∧
      u.name = data.name ∧ u.note = data.note ∧
      u.online = data.online.getD false ∧
      u.brand_name = (match data.brandName with
        | none => none
        | some bd =>
          let s := pyStrip (bd.primary.getD "" ++ " " ++ bd.secondary.getD "")
          if s = "" then none else some s) := by
  unfold parse_unit
  rw [h]
  exact ⟨_, rfl, rfl, rfl, rfl, rfl, rfl⟩

def payloadC8w : UnitData :=
  { serialNumber := some "SN1", name := none, note := none, online := none
    brandName := some ⟨some "ASIN", none⟩
    statusMessages := none, statusValues := none }

theorem parse_unit_total_witness :
    payloadC8w.serialNumber = some "SN1" ∧
    ∃ u, parse_unit payloadC8w = some u ∧ u.serial_number = "SN1" ∧
      u.name = payloadC8w.name ∧ u.note = payloadC8w.note ∧
      u.online = payloadC8w.online.getD false ∧
      u.brand_name = (match payloadC8w.brandName with
        | none => none
        | some bd =>
          let s := pyStrip (bd.primary.getD "" ++ " " ++ bd.secondary.getD "")
          if s = "" then none else some s) :=
  ⟨rfl, parse_unit_total payloadC8w "SN1" rfl⟩

/-- Every key of a dict after an insert is the inserted key or a key that
was already present. -/
theorem dictInsert_keys (m : List (String × AsekoUnit)) (k : String) (v : AsekoUnit)
    (p : String × AsekoUnit) (hp : p ∈ dictInsert m k v) :
    p.1 = k ∨ ∃ q ∈ m, p.1 = q.1 := by
  unfold dictInsert at hp
  by_cases hany : m.any fun q => q.1 = k
  · rw [if_pos hany] at hp
    obtain ⟨q, hq, hfq⟩ := List.mem_map.mp hp
    by_cases hqk : q.1 = k
    · rw [if_pos hqk] at hfq
      left
      rw [← hfq]
    · rw [if_neg hqk] at hfq
      right
      exact ⟨q, hq, by rw [← hfq]⟩
  · rw [if_neg hany] at hp
    rcases List.mem_append.mp hp with h | h
    · right; exact ⟨p, h, rfl⟩
    · left; simp at h; rw [h]

/-- Every key of the built dict is the serial number of some listed unit or
a key of the starting accumulator. -/
theorem foldl_dictInsert_keys :
    ∀ (L : List AsekoUnit) (m : List (String × AsekoUnit)) (p : String × AsekoUnit),
      p ∈ L.foldl (fun m u => dictInsert m u.serial_number u) m →
      (∃ q ∈ m, p.1 = q.1) ∨ ∃ u ∈ L, p.1 = u.serial_number := by
  intro L
  induction L with
  | nil => intro m p hp; left; exact ⟨p, hp, rfl⟩
  | cons u L ih =>
    intro m p hp
    rw [List.foldl_cons] at hp
    rcases ih _ p hp with ⟨q, hq, hpq⟩ | ⟨w, hw, hpw⟩
    · rcases dictInsert_keys m u.serial_number u q hq with h | ⟨r, hr, hqr⟩
      · right; exact ⟨u, List.mem_cons_self _ _, hpq.trans h⟩
      · left; exact ⟨r, hr, hpq.trans hqr⟩
    · right; exact ⟨w, List.mem_cons_of_mem _ hw, hpw⟩

/-- A serial absent from the result list is absent from the built mapping. -/
theorem lookup_unitsToDict_none (L : List AsekoUnit) (sn : String)
    (h : ∀ u ∈ L, u.serial_number ≠ sn) :
    (unitsToDict L).lookup sn = none := by
  rw [List.lookup_eq_none_iff]
  intro p hp
  rcases foldl_dictInsert_keys L [] p hp with ⟨q, hq, _⟩ | ⟨u, hu, hpu⟩
  · simp at hq
  · have hne : sn ≠ p.1 := by
      rw [hpu]
      exact fun hc => h u hu hc.symm
    simpa using hne

/-- C6: for every refresh cycle, an `AsekoAuthError` raised by `get_units`
leaves the exposed mapping unchanged and raises the fatal re-authentication
signal with the original message; any other `AsekoApiError` leaves the
mapping unchanged and raises the transient update-failed signal; a success
with list `L` replaces the mapping wholesale by the serial-to-unit dict over
`L`, so serials absent from `L` are absent from the mapping afterwards. -/
theorem coordinator_refresh_spec (prev : List (String × AsekoUnit))
    (res : GetUnitsResult) :
    (∀ e, res = .raised e → e.cls = .asekoAuthError →
      coordinator_refresh prev res =
        (prev, some (.configEntryAuthFailed ("Authentication failed: " ++ e.msg)))) ∧
    (∀ e, res = .raised e → e.cls ≠ .asekoAuthError →
      classDerives e.cls .asekoApiError = true →
      coordinator_refresh prev res =
        (prev, some (.updateFailed ("Error fetching data: " ++ e.msg)))) ∧
    (∀ L, res = .ok L →
      coordinator_refresh prev res = (unitsToDict L, none) ∧
      ∀ sn, (∀ u ∈ L, u.serial_number ≠ sn) →
        (unitsToDict L).lookup sn = none) := by
  refine ⟨?_, ?_, ?_⟩
  · intro e hres hcls
    subst hres
    have hd : classDerives e.cls .asekoAuthError = true :=
      (classDerives_auth_iff _).mpr hcls
    simp [coordinator_refresh, coordinator_update, hd]
  · intro e hres hcls hapi
    subst hres
    have hd : classDerives e.cls .asekoAuthError = false := by
      by_contra hc
      simp only [Bool.not_eq_false] at hc
      exact hcls ((classDerives_auth_iff _).mp hc)
    simp [coordinator_refresh, coordinator_update, hd, hapi]
  · intro L hres
    subst hres
    exact ⟨by simp [coordinator_refresh, coordinator_update],
      fun sn hsn => lookup_unitsToDict_none L sn hsn⟩

theorem coordinator_refresh_spec_witness :
    coordinator_refresh [] (.raised ⟨.asekoAuthError, "key expired"⟩) =
      ([], some (.configEntryAuthFailed ("Authentication failed: " ++ "key expired"))) :=
  (coordinator_refresh_spec [] (.raised ⟨.asekoAuthError, "key expired"⟩)).1
    ⟨.asekoAuthError, "key expired"⟩ rfl rfl

/-- C10: every error class the client raises (`AsekoAuthError`,
`AsekoNotFoundError`, `AsekoConnectionError`) is a subclass of
`AsekoApiError`; consequently any raised exception whose class is an
`AsekoApiError` subclass but not an `AsekoAuthError` subclass is caught by
the coordinator's `AsekoApiError` handler and surfaced as the transient
update-failed signal — never as the fatal re-auth signal and never
unhandled. -/
theorem client_errors_are_api_errors :
    (classDerives .asekoAuthError .asekoApiError = true ∧
     classDerives .asekoNotFoundError .asekoApiError = true ∧
     classDerives .asekoConnectionError .asekoApiError = true) ∧
    ∀ e : PyExc, classDerives e.cls .asekoApiError = true →
      classDerives e.cls .asekoAuthError = false →
        coordinator_update (.raised e) =
          .error (.updateFailed ("Error fetching data: " ++ e.msg)) := by
  refine ⟨by decide, ?_⟩
  intro e h1 h2
  simp [coordinator_update, h1, h2]

theorem client_errors_are_api_errors_witness :
    coordinator_update (.raised ⟨.asekoConnectionError, "boom"⟩) =
      .error (.updateFailed ("Error fetching data: " ++ "boom")) :=
  client_errors_are_api_errors.2 ⟨.asekoConnectionError, "boom"⟩
    (by decide) (by decide)

end Aseko
